import Mathlib

/-!
Shallow embedding of the mind-form-maker core (schema-driven dynamic form
renderer plus clarification negotiation loop) for specification checking.

Sources embedded:
- src/pages/SharedForm.tsx (the `DynamicForm` component bundled there):
  `validateField`, `handleSubmit`, `handleChange`;
- src/components/FormBuilder.tsx: the `FormSchema` generation-result type,
  `generateForm`, `handleClarificationSubmit`.

JavaScript string truthiness (`value && ...`, `x || y`) is embedded
explicitly (`jsOr`, emptiness tests), and the two built-in regular
expressions of `validateField` are embedded as executable character-level
tests with exactly the language of the source regexes.
-/

set_option autoImplicit false

namespace MindFormMaker

/-- Whitespace as matched by JavaScript `\s` and removed by `String.trim`,
restricted to the code points relevant here (ASCII whitespace plus NBSP). -/
def jsWhitespace (c : Char) : Bool :=
  c == ' ' || c == '\t' || c == '\n' || c == '\r' || c == '\x0b' || c == '\x0c' || c == '\u00A0'

/-- Embeds the JavaScript test `!value.trim()`: the string trims to the empty
string exactly when every character is whitespace. -/
def jsTrimEmpty (s : String) : Bool :=
  s.toList.all jsWhitespace

/-- Embeds JavaScript `o || d` for an optional string `o`: a missing or empty
(falsy) string falls back to the default `d`. -/
def jsOr (o : Option String) (d : String) : String :=
  match o with
  | some m => if m == "" then d else m
  | none => d

/-- Field type tags of the source union
`'text' | 'email' | 'tel' | 'number' | 'select' | 'textarea'`. -/
inductive FieldType where
  | text
  | email
  | tel
  | number
  | select
  | textarea
  deriving DecidableEq, BEq, Repr

/-- Embeds the source `validation?: { pattern?: string; message?: string }`.
The regular-expression engine is abstracted: `pattern = some test` embeds a
present (JS-truthy, i.e. non-empty) pattern string whose compiled
`RegExp.test` is the Lean predicate `test`. -/
structure FieldValidation where
  pattern : Option (String → Bool)
  message : Option String

/-- Embeds the source `FormField` interface (SharedForm.tsx / FormBuilder.tsx). -/
structure FormField where
  id : String
  label : String
  type : FieldType
  placeholder : Option String
  required : Bool
  validation : Option FieldValidation
  options : Option (List String)

/-- Characters admitted by the source character class `[^\s@]`. -/
def emailAtomChar (c : Char) : Bool :=
  !jsWhitespace c && c != '@'

/-- Embeds `/^[^\s@]+@[^\s@]+\.[^\s@]+$/.test value` from `validateField`.
The string must be `a ++ "@" ++ b ++ "." ++ c` with `a`, `b`, `c` non-empty
and free of whitespace and `@`; equivalently: a non-empty `[^\s@]+` part
before the single `@`, and a domain part whose interior contains a dot. -/
def emailRegexTest (s : String) : Bool :=
  let cs := s.toList
  let localPart := cs.takeWhile (fun c => c != '@')
  match cs.dropWhile (fun c => c != '@') with
  | '@' :: domain =>
      !localPart.isEmpty && localPart.all emailAtomChar &&
      !domain.isEmpty && domain.all emailAtomChar &&
      ((domain.drop 1).dropLast.contains '.')
  | _ => false

/-- Characters admitted by the source character class `[\d\s\-\+\(\)]`. -/
def phoneChar (c : Char) : Bool :=
  c.isDigit || jsWhitespace c || c == '-' || c == '+' || c == '(' || c == ')'

/-- Embeds `/^[\d\s\-\+\(\)]+$/.test value` from `validateField`. -/
def phoneRegexTest (s : String) : Bool :=
  !s.isEmpty && s.toList.all phoneChar

/-- Embeds the custom-pattern block of `validateField` (SharedForm.tsx):
`if (value && field.validation?.pattern) { ... }` — on a non-empty value with
a present pattern, a failed test yields `field.validation.message ||
`Invalid ${field.label}``. -/
def patternError (field : FormField) (value : String) : Option String :=
  if value.isEmpty then none else
  match field.validation with
  | some v =>
      match v.pattern with
      | some test =>
          if test value then none
          else some (jsOr v.message ("Invalid " ++ field.label))
      | none => none
  | none => none

/-- Embeds the built-in type checks of `validateField` (SharedForm.tsx):
the email-shape check for `type === 'email'` and the phone-character check
for `type === 'tel'`, each only on a non-empty value. -/
def builtinTypeError (field : FormField) (value : String) : Option String :=
  if value.isEmpty then none
  else if field.type == FieldType.email && !emailRegexTest value then
    some "Invalid email address"
  else if field.type == FieldType.tel && !phoneRegexTest value then
    some "Invalid phone number"
  else none

/-- Embeds `validateField` of the `DynamicForm` component (SharedForm.tsx):
required check first, then the custom-pattern check, then the built-in type
checks, first failure returned; `none` means accepted. -/
def validateField (field : FormField) (value : String) : Option String :=
  if field.required && jsTrimEmpty value then some (field.label ++ " is required")
  else match patternError field value with
  | some e => some e
  | none => builtinTypeError field value

/-- Association list embedding a JavaScript plain-object record
`Record<string, string>` (`formData`, `errors`). Key order is insertion
order, as for JS objects with string keys; keys are unique in every record
the components build. -/
abbrev StrRecord := List (String × String)

/-- Embeds JS property read `m[k]`: the value at the first occurrence of `k`,
or `none` (`undefined`) when absent. -/
def recGet : StrRecord → String → Option String
  | [], _ => none
  | (k', v') :: rest, k => if k' == k then some v' else recGet rest k

/-- Embeds JS property write `{ ...m, [k]: v }` (equally `m[k] = v`):
replaces the value at an existing key in place, else appends the new pair. -/
def recSet : StrRecord → String → String → StrRecord
  | [], k, v => [(k, v)]
  | (k', v') :: rest, k, v =>
      if k' == k then (k, v) :: rest else (k', v') :: recSet rest k v

/-- Embeds JS `delete m[k]`: removes the entry at key `k`. -/
def recDelete : StrRecord → String → StrRecord
  | [], _ => []
  | (k', v') :: rest, k =>
      if k' == k then recDelete rest k else (k', v') :: recDelete rest k

/-- Embeds the `FormSchema` interface of the `DynamicForm` component
(SharedForm.tsx): `title?`, `description?`, `fields?`, all optional, no tag. -/
structure DynFormSchema where
  title : Option String
  description : Option String
  fields : Option (List FormField)

/-- Embeds the `DynamicForm` component state: `formData`, `errors`,
`submitted` (`isSubmitting` is transient and omitted — it is `false` again
whenever `handleSubmit` resolves). -/
structure FormState where
  formData : StrRecord
  errors : StrRecord
  submitted : Bool

/-- Embeds the row inserted into `form_submissions` by `handleSubmit`:
`{ form_title: schema.title || 'Untitled Form', form_data: formData,
form_id: formId || null }`. -/
structure Submission where
  form_title : String
  form_data : StrRecord
  form_id : Option String
  deriving DecidableEq

/-- Embeds JS `formId || null` for the optional `formId` prop. -/
def jsOrNull (o : Option String) : Option String :=
  match o with
  | some s => if s == "" then none else some s
  | none => none

/-- Outcome of one `handleSubmit` run: validation failed with the freshly
built error record, or the insert succeeded, or the insert was attempted and
failed (the `catch` branch). -/
inductive SubmitOutcome where
  | validationFailed (errors : StrRecord)
  | persisted (sub : Submission)
  | persistFailed
  deriving DecidableEq

/-- Embeds the error-collection loop of `handleSubmit`: `schema.fields?.
forEach(field => { const error = validateField(field, formData[field.id] ||
''); if (error) newErrors[field.id] = error; })`, i.e. a left fold over the
fields that never stops early. -/
def collectErrors (formData : StrRecord) : List FormField → StrRecord → StrRecord
  | [], acc => acc
  | field :: rest, acc =>
      match validateField field (jsOr (recGet formData field.id) "") with
      | some e => collectErrors formData rest (recSet acc field.id e)
      | none => collectErrors formData rest acc

/-- Result of one `handleSubmit` run: the component state afterwards, the
outcome, and whether the storage collaborator (`supabase.from(
'form_submissions').insert`) was invoked at all. -/
structure SubmitResult where
  state : FormState
  outcome : SubmitOutcome
  storageInvoked : Bool

/-- Embeds `handleSubmit` of `DynamicForm` (SharedForm.tsx). `insertOk`
is the storage collaborator's verdict, consulted only when the insert is
reached. Validation failure replaces `errors` wholesale and returns before
any storage call; insert success clears `formData` and `errors` and sets
`submitted`; insert failure (the `catch`) leaves the state untouched. -/
def handleSubmit (schema : DynFormSchema) (formId : Option String)
    (st : FormState) (insertOk : Bool) : SubmitResult :=
  let newErrors := collectErrors st.formData (schema.fields.getD []) []
  if !newErrors.isEmpty then
    ⟨{ st with errors := newErrors }, .validationFailed newErrors, false⟩
  else if insertOk then
    ⟨{ formData := [], errors := [], submitted := true },
      .persisted ⟨jsOr schema.title "Untitled Form", st.formData, jsOrNull formId⟩,
      true⟩
  else
    ⟨st, .persistFailed, true⟩

/-- Embeds JS truthiness of `errors[fieldId]`: present and non-empty. -/
def jsTruthy (o : Option String) : Bool :=
  match o with
  | some s => s != ""
  | none => false

/-- Embeds `handleChange` of `DynamicForm` (SharedForm.tsx): write the new
value into `formData`, and if an error entry for the field is present
(truthy), delete exactly that entry. No validation runs here. -/
def handleChange (st : FormState) (fieldId value : String) : FormState :=
  { st with
    formData := recSet st.formData fieldId value,
    errors :=
      if jsTruthy (recGet st.errors fieldId) then recDelete st.errors fieldId
      else st.errors }

/-- Embeds the `type` discriminator values `'form' | 'clarification'` of the
generation result (FormBuilder.tsx). -/
inductive GenTag where
  | form
  | clarification
  deriving DecidableEq, BEq, Repr

/-- Embeds the `FormSchema` interface of FormBuilder.tsx (lines 24-31): the
generation result as the source declares it — a single struct with a `type`
tag and ALL variant fields optional, so fields of both variants can coexist
in one value. -/
structure FormSchema where
  type : GenTag
  title : Option String
  description : Option String
  fields : Option (List FormField)
  contradiction : Option String
  questions : Option (List String)

/-- Embeds the `FormBuilder` component state: `description`, `isGenerating`,
`formSchema`, `showClarification`, `formId`. -/
structure BuilderState where
  description : String
  isGenerating : Bool
  formSchema : Option FormSchema
  showClarification : Bool
  formId : Option String

/-- Gateway verdict for one `supabase.functions.invoke('generate-form')`
call: transport/function error, or a parsed generation result. -/
inductive GatewayResp where
  | failure
  | success (data : FormSchema)

/-- Environment of one `generateForm` run: the gateway's response and, when
the save of a `'form'` result is reached, the id returned by the
`forms` insert (`none` embeds `saveError`). -/
structure GenEnv where
  gateway : GatewayResp
  saveResult : Option String

/-- Result of one `generateForm` run: the builder state afterwards and the
description sent to the Schema Generation Gateway (`none` when the early
return fired and no request was made). -/
structure GenOutcome where
  state : BuilderState
  requested : Option String

/-- Embeds `generateForm` of FormBuilder.tsx. `closureDescription` is the
`description` binding the `generateForm` closure captured at its creation
(for a direct button click this is the current state's description; for the
`setTimeout` resubmission it is the description of the render in which the
timeout was scheduled). The guard `if (!description.trim()) return` fires
before any request; a gateway error leaves the schema untouched; a
`'clarification'` result opens the dialog; a `'form'` result is saved, and a
successful save records the new form id. `finally` clears `isGenerating`. -/
def generateFormWith (closureDescription : String) (s : BuilderState)
    (env : GenEnv) : GenOutcome :=
  if jsTrimEmpty closureDescription then ⟨s, none⟩
  else
    match env.gateway with
    | .failure => ⟨{ s with isGenerating := false }, some closureDescription⟩
    | .success data =>
        if data.type == GenTag.clarification then
          ⟨{ s with formSchema := some data, showClarification := true, isGenerating := false }, some closureDescription⟩
        else
          match env.saveResult with
          | some fid =>
              ⟨{ s with formSchema := some data, formId := some fid, isGenerating := false }, some closureDescription⟩
          | none =>
              ⟨{ s with formSchema := some data, isGenerating := false }, some closureDescription⟩

/-- Embeds the amended-description construction of
`handleClarificationSubmit` (FormBuilder.tsx line 93):
```${description}\n\nClarifications:\n${answers.join('\n')}``. -/
def amendDescription (description : String) (answers : List String) : String :=
  description ++ "\n\nClarifications:\n" ++ String.intercalate "\n" answers

/-- State update of `handleClarificationSubmit` plus the description that
the scheduled regeneration will read. The handler calls
`setDescription(updatedDescription)` and then `setTimeout(() =>
generateForm(), 100)`; that callback invokes the `generateForm` closure of
the render in which the handler itself was created, and that closure
captured the PRE-update `description` binding — so `scheduledDescription`
is the original `s.description`, not the amended one. -/
structure ClarificationStep where
  state : BuilderState
  scheduledDescription : String

/-- Embeds `handleClarificationSubmit` of FormBuilder.tsx: store the amended
description, close the dialog, drop the clarification result, and schedule
one regeneration whose closure reads the pre-update description. -/
def handleClarificationSubmit (s : BuilderState) (answers : List String) :
    ClarificationStep :=
  ⟨{ s with
      description := amendDescription s.description answers,
      showClarification := false,
      formSchema := none },
    s.description⟩

/-- Composition of one clarification round: the handler runs, then the
single scheduled `generateForm` fires with the description its closure
captured, against the updated component state. -/
def clarificationResubmission (s : BuilderState) (answers : List String)
    (env : GenEnv) : GenOutcome :=
  let step := handleClarificationSubmit s answers
  generateFormWith step.scheduledDescription step.state env

/-- Email-typed field whose custom validation pattern is the source pattern
`".*"`, whose compiled test accepts every string (an unanchored `.*` matches
the empty prefix of any input), with no custom message. -/
def permissivePatternEmailField : FormField :=
  ⟨"work_email", "Work Email", FieldType.email, none, false,
    some ⟨some (fun _ => true), none⟩, none⟩

/-- Compiled test of the source pattern `"^123$"`: accepts exactly `"123"`. -/
def exactCodeTest (s : String) : Bool :=
  s == "123"

/-- Validation rule carrying `exactCodeTest` and a custom message. -/
def exactCodeValidation : FieldValidation :=
  ⟨some exactCodeTest, some "Enter the code 123"⟩

/-- Text field carrying `exactCodeValidation`. -/
def codeField : FormField :=
  ⟨"code", "Access Code", FieldType.text, none, false, some exactCodeValidation, none⟩

/-- Single-field schema of the email scenario:
`{id: "email", type: "email", required: true}`. -/
def emailOnlyField : FormField :=
  ⟨"email", "Email", FieldType.email, none, true, none, none⟩

/-- Schema wrapping `emailOnlyField`, as loaded by the shared-form page. -/
def emailOnlySchema : DynFormSchema :=
  ⟨some "Contact", none, some [emailOnlyField]⟩

/-- Required short-text field used by the submission witnesses. -/
def reqNameField : FormField :=
  ⟨"name", "Name", FieldType.text, none, true, none, none⟩

/-- Second required short-text field used by the submission witnesses. -/
def reqCityField : FormField :=
  ⟨"city", "City", FieldType.text, none, true, none, none⟩

/-- Two-required-field schema used by the submission witnesses. -/
def twoFieldSchema : DynFormSchema :=
  ⟨some "Profile", none, some [reqNameField, reqCityField]⟩

/-- Fresh render-session state: empty answer map, empty error map. -/
def emptyFormState : FormState :=
  ⟨[], [], false⟩

/-- Clarification result returned by the gateway in the spec scenario. -/
def clarifResult : FormSchema :=
  ⟨GenTag.clarification, none, none, none,
    some "Anonymity conflicts with collecting a phone number",
    some ["Should the form be anonymous or collect phone numbers?"]⟩

/-- Builder state right after the scenario's clarification result arrived. -/
def feedbackState : BuilderState :=
  ⟨"anonymous feedback form with required phone number", false,
    some clarifResult, true, none⟩

/-- Form result the gateway returns on the scenario's second attempt. -/
def regeneratedForm : FormSchema :=
  ⟨GenTag.form, some "Feedback", none, some [], none, none⟩

/-- Value of the all-optional generation-result struct in which fields of
both variants are populated at once; it typechecks against the source
`FormSchema` interface exactly as it does against this embedding. -/
def mixedGenerationResult : FormSchema :=
  ⟨GenTag.form, some "Feedback", none, some [],
    some "left-over contradiction", some ["left-over question"]⟩

/-- Render-session state with one answer and two live error entries, used
as the concrete input of the edit-clears-error witness. -/
def errState : FormState :=
  ⟨[("name", "x")], [("name", "Name is required"), ("city", "City is required")], false⟩

/-- Builder state whose description is whitespace-only. -/
def blankState : BuilderState :=
  ⟨"   ", false, none, false, none⟩

theorem recGet_recSet (m : StrRecord) (k' v k : String) :
    recGet (recSet m k' v) k = if k' = k then some v else recGet m k := by
  induction m with
  | nil => simp [recSet, recGet, beq_iff_eq]
  | cons p rest ih =>
      obtain ⟨a, b⟩ := p
      by_cases hak : a = k'
      · subst hak
        by_cases hk : a = k
        · subst hk
          simp [recSet, recGet]
        · simp [recSet, recGet, beq_iff_eq, hk]
      · by_cases hk : a = k
        · subst hk
          have hka : ¬k' = a := fun h => hak h.symm
          simp [recSet, recGet, beq_iff_eq, hak, hka]
        · simp [recSet, recGet, beq_iff_eq, hak, hk, ih]

theorem recGet_recDelete (m : StrRecord) (k' k : String) :
    recGet (recDelete m k') k = if k' = k then none else recGet m k := by
  induction m with
  | nil => simp [recDelete, recGet]
  | cons p rest ih =>
      obtain ⟨a, b⟩ := p
      by_cases hak : a = k'
      · subst hak
        by_cases hk : a = k
        · subst hk
          simp [recDelete, recGet, ih]
        · simp [recDelete, recGet, beq_iff_eq, hk, ih]
      · by_cases hk : a = k
        · subst hk
          have hka : ¬k' = a := fun h => hak h.symm
          simp [recDelete, recGet, beq_iff_eq, hak, hka]
        · simp [recDelete, recGet, beq_iff_eq, hak, hk, ih]

theorem recGet_mem (m : StrRecord) (k v : String) (h : recGet m k = some v) :
    (k, v) ∈ m := by
  induction m with
  | nil => simp [recGet] at h
  | cons p rest ih =>
      obtain ⟨a, b⟩ := p
      by_cases hak : a = k
      · subst hak
        simp [recGet] at h
        simp [h]
      · simp [recGet, beq_iff_eq, hak] at h
        exact List.mem_cons_of_mem _ (ih h)

theorem collectErrors_mono (formData : StrRecord) (fields : List FormField) :
    ∀ (acc : StrRecord) (k : String), (recGet acc k).isSome = true →
      (recGet (collectErrors formData fields acc) k).isSome = true := by
  induction fields with
  | nil =>
      intro acc k h
      simpa [collectErrors] using h
  | cons f rest ih =>
      intro acc k h
      simp only [collectErrors]
      cases hv : validateField f (jsOr (recGet formData f.id) "") with
      | none => exact ih acc k h
      | some e =>
          apply ih
          rw [recGet_recSet]
          by_cases hk : f.id = k
          · simp [hk]
          · simpa [hk] using h

theorem collectErrors_covers (formData : StrRecord) (f : FormField) (e : String)
    (hfail : validateField f (jsOr (recGet formData f.id) "") = some e) :
    ∀ (fields : List FormField) (acc : StrRecord), f ∈ fields →
      (recGet (collectErrors formData fields acc) f.id).isSome = true := by
  intro fields
  induction fields with
  | nil =>
      intro acc hmem
      simp at hmem
  | cons g rest ih =>
      intro acc hmem
      rcases List.mem_cons.mp hmem with hg | hg
      · subst hg
        simp only [collectErrors, hfail]
        apply collectErrors_mono
        rw [recGet_recSet]
        simp
      · simp only [collectErrors]
        cases hv : validateField g (jsOr (recGet formData g.id) "") with
        | none => exact ih (acc) hg
        | some e' => exact ih (recSet acc g.id e') hg

/-- Claim C1, counterexample: a field of type email with the custom pattern
`".*"` (whose compiled test accepts every string) and the non-empty value
"not-an-email". The value matches the pattern, yet `validateField` rejects it
with "Invalid email address": the matching custom pattern does NOT supersede
the built-in email check, refuting the claim that a pattern match is accepted
regardless of the field's type. -/
theorem matching_pattern_still_hits_builtin_email_check :
    permissivePatternEmailField.validation = some ⟨some (fun _ => true), none⟩
    ∧ (fun (_ : String) => true) "not-an-email" = true
    ∧ validateField permissivePatternEmailField "not-an-email"
        = some "Invalid email address" :=
  ⟨rfl, rfl, by decide⟩

/-- Claim C1, amended: for a field with a present custom pattern and a
non-empty value that does not trip the required check, a value failing the
pattern is rejected with the custom message when present and non-empty, else
"Invalid <label>"; a value matching the pattern is NOT unconditionally
accepted — the built-in type check (email shape or telephone characters)
still runs and decides the result. -/
theorem validate_custom_pattern_then_builtin (field : FormField)
    (v : FieldValidation) (test : String → Bool) (value : String)
    (hv : field.validation = some v) (hp : v.pattern = some test)
    (hne : value.isEmpty = false)
    (hreq : (field.required && jsTrimEmpty value) = false) :
    (test value = false →
      validateField field value = some (jsOr v.message ("Invalid " ++ field.label)))
    ∧ (test value = true →
      validateField field value = builtinTypeError field value) := by
  constructor <;> intro ht <;>
    simp [validateField, patternError, hv, hp, hne, hreq, ht]

/-- Claim C1, witness for the amended theorem at the concrete field
`codeField` and value "abc". -/
theorem validate_custom_pattern_then_builtin_witness :
    codeField.validation = some exactCodeValidation
    ∧ exactCodeValidation.pattern = some exactCodeTest
    ∧ ("abc" : String).isEmpty = false
    ∧ (codeField.required && jsTrimEmpty "abc") = false
    ∧ exactCodeTest "abc" = false
    ∧ validateField codeField "abc"
        = some (jsOr exactCodeValidation.message ("Invalid " ++ codeField.label)) := by
  have h := validate_custom_pattern_then_builtin codeField exactCodeValidation
    exactCodeTest "abc" rfl rfl rfl (by decide)
  exact ⟨rfl, rfl, rfl, by decide, by decide, h.1 (by decide)⟩

/-- Claim C6: the amended description is the original description verbatim
followed by the labeled "Clarifications:" block, with the answers listed in
question order — in particular, for answers [A1, A2], A1 occurs before A2. -/
theorem amended_description_structure (d a1 a2 : String) :
    amendDescription d [a1, a2] = d ++ ("\n\nClarifications:\n" ++ (a1 ++ ("\n" ++ a2)))
    ∧ (∃ rest, amendDescription d [a1, a2] = d ++ rest)
    ∧ (∃ u v w, amendDescription d [a1, a2] = u ++ (a1 ++ (v ++ (a2 ++ w)))) := by
  have hjoin : String.intercalate "\n" [a1, a2] = a1 ++ "\n" ++ a2 := rfl
  have hmain : amendDescription d [a1, a2]
      = d ++ ("\n\nClarifications:\n" ++ (a1 ++ ("\n" ++ a2))) := by
    simp only [amendDescription, hjoin, String.append_assoc]
  refine ⟨hmain, ⟨_, hmain⟩, ⟨d ++ "\n\nClarifications:\n", "\n", "", ?_⟩⟩
  rw [hmain, String.append_empty, String.append_assoc]

/-- Claim C7: for every required field, an empty or whitespace-only raw value
is rejected with "<label> is required", and this verdict is independent of
any custom pattern or field type — the required check runs first. -/
theorem required_check_runs_first (field : FormField) (value : String)
    (hreq : field.required = true) (hblank : jsTrimEmpty value = true) :
    validateField field value = some (field.label ++ " is required") := by
  simp [validateField, hreq, hblank]

/-- Claim C7, witness: the required email field with the whitespace-only
value " ". -/
theorem required_check_runs_first_witness :
    emailOnlyField.required = true
    ∧ jsTrimEmpty " " = true
    ∧ validateField emailOnlyField " " = some "Email is required" :=
  ⟨rfl, by decide, required_check_runs_first emailOnlyField " " rfl (by decide)⟩

/-- Claim C8: for the schema whose single field is
{id: "email", type: email, required: true} with no custom pattern, submitting
"not-an-email" yields exactly the error map {"email": "Invalid email
address"} with no storage call, and submitting "a@b.com" passes validation
and produces a Submission. -/
theorem email_field_scenario :
    (handleSubmit emailOnlySchema none ⟨[("email", "not-an-email")], [], false⟩ true).outcome
        = SubmitOutcome.validationFailed [("email", "Invalid email address")]
    ∧ (handleSubmit emailOnlySchema none ⟨[("email", "not-an-email")], [], false⟩ true).storageInvoked
        = false
    ∧ (handleSubmit emailOnlySchema none ⟨[("email", "a@b.com")], [], false⟩ true).outcome
        = SubmitOutcome.persisted ⟨"Contact", [("email", "a@b.com")], none⟩
    ∧ (handleSubmit emailOnlySchema none ⟨[("email", "a@b.com")], [], false⟩ true).state.submitted
        = true := by
  refine ⟨by decide, by decide, by decide, by decide⟩

/-- Claim C2: in the spec scenario, after the clarification answers are
submitted, the component state does hold the amended description, but the
single scheduled regeneration request carries the ORIGINAL description — the
`setTimeout` callback invokes the `generateForm` closure that captured the
pre-update `description`, contradicting the claim that the request carries
the amended description. -/
theorem clarification_resubmission_sends_stale_description :
    (clarificationResubmission feedbackState ["Collect phone numbers"]
        ⟨GatewayResp.success regeneratedForm, some "form-1"⟩).requested
      = some "anonymous feedback form with required phone number"
    ∧ (handleClarificationSubmit feedbackState ["Collect phone numbers"]).state.description
      = amendDescription "anonymous feedback form with required phone number"
          ["Collect phone numbers"]
    ∧ (clarificationResubmission feedbackState ["Collect phone numbers"]
        ⟨GatewayResp.success regeneratedForm, some "form-1"⟩).requested
      ≠ some (amendDescription "anonymous feedback form with required phone number"
          ["Collect phone numbers"]) :=
  ⟨by decide, rfl, by decide⟩

/-- Claim C3, counterexample: the generation-result type of the source is
refuted as a sum type — `mixedGenerationResult` is a single value tagged
"form" in which the clarification variant's fields are present as well, so
the tag does not exclude the other variant's fields. -/
theorem generation_result_mixes_variant_fields :
    ¬ (∀ s : FormSchema,
        (s.type = GenTag.form → s.contradiction = none ∧ s.questions = none)
        ∧ (s.type = GenTag.clarification → s.title = none ∧ s.fields = none)) := by
  intro h
  have h1 := (h mixedGenerationResult).1 rfl
  simp [mixedGenerationResult] at h1

/-- Claim C3, amended: the generation result is declared as one struct with
a `type` tag and all variant fields optional, so values populating both
variants' fields at once are representable. -/
theorem generation_result_one_struct_all_optional :
    ∃ s : FormSchema, s.type = GenTag.form ∧ s.title = some "Feedback"
      ∧ s.fields = some [] ∧ s.contradiction = some "left-over contradiction"
      ∧ s.questions = some ["left-over question"] :=
  ⟨mixedGenerationResult, rfl, rfl, rfl, rfl, rfl⟩

/-- Claim C4: when at least one field of the schema fails validation (absent
answers read as the empty string), `handleSubmit` returns the accumulated
error record built from every field, invokes no storage collaborator,
creates no Submission, and that error record has an entry for every failing
field — the loop never stops at the first failure. -/
theorem submit_collects_every_failure
    (schema : DynFormSchema) (formId : Option String) (st : FormState)
    (insertOk : Bool) (f0 : FormField) (e0 : String)
    (hmem : f0 ∈ schema.fields.getD [])
    (hfail : validateField f0 (jsOr (recGet st.formData f0.id) "") = some e0) :
    (handleSubmit schema formId st insertOk).outcome
        = SubmitOutcome.validationFailed
            (collectErrors st.formData (schema.fields.getD []) [])
    ∧ (handleSubmit schema formId st insertOk).storageInvoked = false
    ∧ (∀ sub, (handleSubmit schema formId st insertOk).outcome
        ≠ SubmitOutcome.persisted sub)
    ∧ (∀ f e, f ∈ schema.fields.getD [] →
        validateField f (jsOr (recGet st.formData f.id) "") = some e →
        (recGet (collectErrors st.formData (schema.fields.getD []) []) f.id).isSome
          = true) := by
  have hcover :=
    collectErrors_covers st.formData f0 e0 hfail (schema.fields.getD []) [] hmem
  have hnil : collectErrors st.formData (schema.fields.getD []) [] ≠ [] := by
    intro hEq
    rw [hEq] at hcover
    simp [recGet] at hcover
  have hEmpty : (collectErrors st.formData (schema.fields.getD []) []).isEmpty
      = false := by
    cases hc : collectErrors st.formData (schema.fields.getD []) [] with
    | nil => exact absurd hc hnil
    | cons p rest => simp
  refine ⟨?_, ?_, ?_, ?_⟩
  · simp [handleSubmit, hEmpty]
  · simp [handleSubmit, hEmpty]
  · intro sub
    simp [handleSubmit, hEmpty]
  · intro f e hm hf
    exact collectErrors_covers st.formData f e hf (schema.fields.getD []) [] hm

/-- Claim C4, witness: two required fields, both unanswered; both fail, no
storage call, no Submission. -/
theorem submit_collects_every_failure_witness :
    reqNameField ∈ twoFieldSchema.fields.getD []
    ∧ validateField reqNameField (jsOr (recGet emptyFormState.formData reqNameField.id) "")
        = some "Name is required"
    ∧ (handleSubmit twoFieldSchema none emptyFormState true).storageInvoked = false
    ∧ (∀ sub, (handleSubmit twoFieldSchema none emptyFormState true).outcome
        ≠ SubmitOutcome.persisted sub) := by
  have hm : reqNameField ∈ twoFieldSchema.fields.getD [] := by
    simp [twoFieldSchema]
  have hf : validateField reqNameField (jsOr (recGet emptyFormState.formData reqNameField.id) "")
      = some "Name is required" := by decide
  have h := submit_collects_every_failure twoFieldSchema none emptyFormState true
    reqNameField "Name is required" hm hf
  exact ⟨hm, hf, h.2.1, h.2.2.1⟩

/-- Claim C5: when validation passes and the storage insert fails,
`handleSubmit` reports a persist failure — an outcome distinct from every
validation failure — and the answer map (and error map) are left untouched,
so the user can retry without re-entering data. -/
theorem submit_persist_failure_preserves_answer_map
    (schema : DynFormSchema) (formId : Option String) (st : FormState)
    (hvalid : collectErrors st.formData (schema.fields.getD []) [] = []) :
    (handleSubmit schema formId st false).outcome = SubmitOutcome.persistFailed
    ∧ (∀ es, (handleSubmit schema formId st false).outcome
        ≠ SubmitOutcome.validationFailed es)
    ∧ (handleSubmit schema formId st false).state.formData = st.formData
    ∧ (handleSubmit schema formId st false).state.errors = st.errors := by
  refine ⟨?_, ?_, ?_, ?_⟩
  · simp [handleSubmit, hvalid]
  · intro es
    simp [handleSubmit, hvalid]
  · simp [handleSubmit, hvalid]
  · simp [handleSubmit, hvalid]

/-- Claim C5, witness: a valid email answer with a failing insert keeps the
answer map. -/
theorem submit_persist_failure_preserves_answer_map_witness :
    collectErrors [("email", "a@b.com")] (emailOnlySchema.fields.getD []) [] = []
    ∧ (handleSubmit emailOnlySchema none ⟨[("email", "a@b.com")], [], false⟩ false).outcome
        = SubmitOutcome.persistFailed
    ∧ (handleSubmit emailOnlySchema none ⟨[("email", "a@b.com")], [], false⟩ false).state.formData
        = [("email", "a@b.com")] := by
  have hv : collectErrors [("email", "a@b.com")] (emailOnlySchema.fields.getD []) [] = [] := by
    decide
  have h := submit_persist_failure_preserves_answer_map emailOnlySchema none
    ⟨[("email", "a@b.com")], [], false⟩ hv
  exact ⟨hv, h.1, h.2.2.1⟩

/-- Claim C9: editing a field removes exactly that field's error entry (with
no validation run), leaves every other error entry unchanged, and updates
the answer map only at that field's identifier. The hypothesis records that
error messages are never the empty string, which is true of every message
`validateField` produces. -/
theorem edit_clears_only_own_error (st : FormState) (fieldId value : String)
    (hmsg : ∀ p ∈ st.errors, p.2 ≠ "") :
    recGet (handleChange st fieldId value).errors fieldId = none
    ∧ (∀ k, k ≠ fieldId →
        recGet (handleChange st fieldId value).errors k = recGet st.errors k)
    ∧ recGet (handleChange st fieldId value).formData fieldId = some value
    ∧ (∀ k, k ≠ fieldId →
        recGet (handleChange st fieldId value).formData k = recGet st.formData k) := by
  refine ⟨?_, ?_, ?_, ?_⟩
  · simp only [handleChange]
    cases herr : recGet st.errors fieldId with
    | none => simp [jsTruthy, herr]
    | some s =>
        have hs : s ≠ "" := hmsg (fieldId, s) (recGet_mem _ _ _ herr)
        simp [jsTruthy, herr, hs, recGet_recDelete]
  · intro k hk
    simp only [handleChange]
    cases herr : recGet st.errors fieldId with
    | none => simp [jsTruthy, herr]
    | some s =>
        have hs : s ≠ "" := hmsg (fieldId, s) (recGet_mem _ _ _ herr)
        have hne : ¬fieldId = k := fun h => hk h.symm
        simp [jsTruthy, herr, hs, recGet_recDelete, hne]
  · simp [handleChange, recGet_recSet]
  · intro k hk
    have hne : ¬fieldId = k := fun h => hk h.symm
    simp [handleChange, recGet_recSet, hne]

/-- Claim C9, witness: editing "name" clears only the "name" error and
leaves the "city" error and the rest of the answer map intact. -/
theorem edit_clears_only_own_error_witness :
    (∀ p ∈ errState.errors, p.2 ≠ "")
    ∧ recGet (handleChange errState "name" "Ada").errors "name" = none
    ∧ recGet (handleChange errState "name" "Ada").errors "city" = some "City is required"
    ∧ recGet (handleChange errState "name" "Ada").formData "name" = some "Ada" := by
  have hm : ∀ p ∈ errState.errors, p.2 ≠ "" := by decide
  have h := edit_clears_only_own_error errState "name" "Ada" hm
  refine ⟨hm, h.1, ?_, h.2.2.1⟩
  rw [h.2.1 "city" (by decide)]
  decide

/-- Claim C10: a whitespace-only description makes `generateForm` return
before any gateway request: nothing is sent and the builder state — in
particular `formSchema` and `formId` — is exactly what it was. -/
theorem blank_description_no_gateway_call (s : BuilderState) (env : GenEnv)
    (hblank : jsTrimEmpty s.description = true) :
    (generateFormWith s.description s env).requested = none
    ∧ (generateFormWith s.description s env).state = s := by
  constructor <;> simp [generateFormWith, hblank]

/-- Claim C10, witness: the three-space description. -/
theorem blank_description_no_gateway_call_witness :
    jsTrimEmpty blankState.description = true
    ∧ (generateFormWith blankState.description blankState
        ⟨GatewayResp.failure, none⟩).requested = none
    ∧ (generateFormWith blankState.description blankState
        ⟨GatewayResp.failure, none⟩).state = blankState := by
  have h := blank_description_no_gateway_call blankState
    ⟨GatewayResp.failure, none⟩ (by decide)
  exact ⟨by decide, h.1, h.2⟩

example : emailRegexTest "a@b.com" = true := by decide
example : emailRegexTest "not-an-email" = false := by decide
example : emailRegexTest "a@b" = false := by decide
example : emailRegexTest "a@.c" = false := by decide
example : emailRegexTest "a@b." = false := by decide
example : emailRegexTest "a b@c.d" = false := by decide
example : phoneRegexTest "+1 (555) 123-4567" = true := by decide
example : phoneRegexTest "" = false := by decide
example : phoneRegexTest "55x" = false := by decide

end MindFormMaker
